import Mathlib

/-!
# Verification of the compress-utils core

A shallow embedding of the core logic of the `compress-utils` repository:
the unified level normalizer (`levels.ts`), the per-algorithm one-shot
codec adapters (`binding.cpp` of the zstd / zlib / brotli / lz4 WASM
bindings), the caller-facing one-shot layer (`compress.ts`), the
streaming session layer (`stream.ts`), and the module lifecycle manager
(`loader.ts`).

Byte sequences are modelled as `List Nat` (each entry a byte value).
The external compression libraries (ZSTD, zlib, brotli, LZ4) are out of
scope of the repository; they are modelled as parameters (structures of
functions) together with explicit contract hypotheses stating only what
their documented APIs guarantee.  Machine integers of the source are
modelled as `Nat`/`Int` with explicit truncation where the source
truncates.
-/

namespace CompressUtils

/-- Closed algorithm enumeration (`types.ts` / `algorithms.hpp`):
zstd, brotli, zlib, bz2, lz4, xz. -/
inductive Algorithm
  | zstd | brotli | zlib | bz2 | lz4 | xz
deriving DecidableEq, Repr

/-- Typed error taxonomy of the WASM binding (`errors.ts`): the union of
`CompressErrorCode` and `DecompressErrorCode`. -/
inductive ErrCode
  | invalidInput
  | invalidLevel
  | bufferTooSmall
  | wasmInitFailed
  | wasmOom
  | compressionFailed
  | decompressionFailed
  | corruptedData
  | unexpectedEof
  | streamAlreadyFinished
  | unknownErr
deriving DecidableEq, Repr

/-! ## Level normalizer (`levels.ts`) -/

/-- `ALGORITHM_MAX_LEVELS` (levels.ts): native maximum level per algorithm. -/
def ALGORITHM_MAX_LEVELS : Algorithm → Int
  | .zstd => 22
  | .brotli => 11
  | .zlib => 9
  | .bz2 => 9
  | .lz4 => 12
  | .xz => 9

/-- `ALGORITHM_MIN_LEVELS` (levels.ts): native minimum level per algorithm. -/
def ALGORITHM_MIN_LEVELS : Algorithm → Int
  | .zstd => 1
  | .brotli => 0
  | .zlib => 1
  | .bz2 => 1
  | .lz4 => 1
  | .xz => 0

/-- `DEFAULT_LEVEL` (levels.ts). -/
def DEFAULT_LEVEL : Int := 5

/-- `PRESET_TO_LEVEL` (levels.ts): named preset to numeric level. -/
def PRESET_TO_LEVEL (s : String) : Option Int :=
  if s = "fast" then some 1
  else if s = "balanced" then some 5
  else if s = "best" then some 10
  else none

/-- A JavaScript `CompressionLevel | undefined` argument: `undefined`, a
string, or a number (modelled as an exact rational). -/
inductive JSLevel
  | undef
  | str (s : String)
  | num (x : Rat)

/-- `normalizeLevel(level, algorithm)` (levels.ts): `undefined` maps to the
default 5; a named preset maps through `PRESET_TO_LEVEL`; a number must be an
integer in [1,10] (`!Number.isInteger(level) || level < 1 || level > 10`
throws `InvalidLevel`); anything else throws `InvalidLevel`. -/
def normalizeLevel (level : JSLevel) (_algorithm : Algorithm) : Except ErrCode Int :=
  match level with
  | .undef => .ok DEFAULT_LEVEL
  | .str s =>
    match PRESET_TO_LEVEL s with
    | some n => .ok n
    | none => .error .invalidLevel
  | .num x =>
    if x.den = 1 ∧ 1 ≤ x.num ∧ x.num ≤ 10 then .ok x.num
    else .error .invalidLevel

/-- JavaScript `Math.round(p / q)` for an exact rational `p / q` with
`q > 0`: `Math.round x = ⌊x + 1/2⌋`, and
`⌊p/q + 1/2⌋ = ⌊(2p + q) / (2q)⌋`, i.e. flooring integer division.
On the whole domain reached by `mapLevelToAlgorithm` (all 60 pairs of
algorithm and unified level) IEEE-double evaluation of the source agrees
with this exact value. -/
def jsRoundDiv (p q : Int) : Int := Int.fdiv (2 * p + q) (2 * q)

/-- `mapLevelToAlgorithm(unifiedLevel, algorithm)` (levels.ts):
`Math.round(min + ((unifiedLevel - 1) / 9) * (max - min))`, written over a
common denominator 9. -/
def mapLevelToAlgorithm (unifiedLevel : Int) (a : Algorithm) : Int :=
  let mn := ALGORITHM_MIN_LEVELS a
  let mx := ALGORITHM_MAX_LEVELS a
  jsRoundDiv (9 * mn + (unifiedLevel - 1) * (mx - mn)) 9

/-- The spec's formula for `mapToNative`: `min + round((unified-1)/9 * (max-min))`
(§4.1 of the spec), with `round` again JavaScript `Math.round`. -/
def mapToNativeSpecFormula (unifiedLevel : Int) (a : Algorithm) : Int :=
  ALGORITHM_MIN_LEVELS a + jsRoundDiv ((unifiedLevel - 1) * (ALGORITHM_MAX_LEVELS a - ALGORITHM_MIN_LEVELS a)) 9

/-- `getNativeLevel(level, algorithm)` (levels.ts): normalize, then map. -/
def getNativeLevel (level : JSLevel) (a : Algorithm) : Except ErrCode Int :=
  match normalizeLevel level a with
  | .ok n => .ok (mapLevelToAlgorithm n a)
  | .error e => .error e

/-! ## One-shot codec adapters

The external compression libraries are modelled as structures of
functions, with their documented guarantees as explicit contract
predicates.  `malloc`/`realloc` failure paths of the bindings are out of
scope of the embedding (allocation is assumed to succeed). -/

/-- A byte sequence. -/
abbrev Bytes := List Nat

/-- Result of `ZSTD_getFrameContentSize`: a known size, `CONTENTSIZE_UNKNOWN`,
or `CONTENTSIZE_ERROR`. -/
inductive FrameContentSize
  | known (n : Nat)
  | unknown
  | contentError
deriving DecidableEq, Repr

/-- The external ZSTD library functions used by the zstd `binding.cpp`.
`compressFn` is `ZSTD_compress (dst, dstCapacity, src, srcSize, level)`
(`none` models `ZSTD_isError`); `decompressFn` is
`ZSTD_decompress (dst, dstCapacity, src, srcSize)`. -/
structure ZstdLib where
  compressBound : Nat → Nat
  compressFn : Bytes → Nat → Int → Option Bytes
  getFrameContentSize : Bytes → FrameContentSize
  decompressFn : Bytes → Nat → Option Bytes

/-- Documented contract of the ZSTD one-shot API: compressing into a
`ZSTD_compressBound`-sized buffer succeeds; a frame produced by
`ZSTD_compress` is non-empty, records its content size in the frame
header, and decompresses back to the original input whenever the
destination capacity is at least the content size. -/
structure ZstdLibOk (lib : ZstdLib) : Prop where
  compress_ok : ∀ input level,
    (lib.compressFn input (lib.compressBound input.length) level).isSome
  compress_frame : ∀ input cap level out, lib.compressFn input cap level = some out →
    lib.getFrameContentSize out = .known input.length ∧ out ≠ [] ∧
    ∀ cap2, input.length ≤ cap2 → lib.decompressFn out cap2 = some input

/-- `cu_compress` (zstd `binding.cpp`): allocate `ZSTD_compressBound(input_len)`
bytes and call `ZSTD_compress` once. -/
def zstdCuCompress (lib : ZstdLib) (input : Bytes) (level : Int) : Option Bytes :=
  let maxSize := lib.compressBound input.length
  lib.compressFn input maxSize level

/-- `cu_decompress` (zstd `binding.cpp`): size the output from the frame
header; if the content size is unknown, use `max(input_len * 4, 1024)`;
on `CONTENTSIZE_ERROR` fail; then call `ZSTD_decompress` exactly once
(there is no grow-and-retry loop in this adapter). -/
def zstdCuDecompress (lib : ZstdLib) (input : Bytes) : Option Bytes :=
  match lib.getFrameContentSize input with
  | .contentError => none
  | .unknown => lib.decompressFn input (max (input.length * 4) 1024)
  | .known n => lib.decompressFn input n

/-- A call made to the WASM module's one-shot entry points, as observed by
the TypeScript layer (`wasm.compress` / `wasm.decompress`). -/
inductive ZstdCall
  | compressCall (input : Bytes) (level : Int)
  | decompressCall (input : Bytes)
deriving DecidableEq, Repr

/-- `compressEmpty()` (zstd `compress.ts`): compress a zero-length buffer
through the WASM module at the fixed native level 3
(`wasm.compress(dummyPtr, 0, 3, outputLenPtr)`), regardless of the level
the caller requested. -/
def tsZstdCompressEmpty (lib : ZstdLib) : Except ErrCode Bytes × List ZstdCall :=
  (match zstdCuCompress lib [] 3 with
   | some out => .ok out
   | none => .error .compressionFailed,
   [.compressCall [] 3])

/-- `compress(data, options)` (zstd `compress.ts`): empty input short-circuits
to `compressEmpty()` before any level handling; otherwise the level is
normalized and mapped (`getNativeLevel`) and `wasm.compress` is called once.
The second component records the calls made to the WASM module. -/
def tsZstdCompress (lib : ZstdLib) (data : Bytes) (level : JSLevel) :
    Except ErrCode Bytes × List ZstdCall :=
  if data = [] then tsZstdCompressEmpty lib
  else
    match getNativeLevel level .zstd with
    | .error e => (.error e, [])
    | .ok lvl =>
      (match zstdCuCompress lib data lvl with
       | some out => .ok out
       | none => .error .compressionFailed,
       [.compressCall data lvl])

/-- The caller-facing one-shot decompression wrapper (`decompress` in
`compress.ts`): empty input fails with `InvalidInput`; a null pointer from
the WASM module fails with `DecompressionFailed`. Parameterized by the
binding-level decompress, which is algorithm-specific. -/
def tsDecompressWith (cuDecompress : Bytes → Option Bytes) (data : Bytes) :
    Except ErrCode Bytes :=
  if data = [] then .error .invalidInput
  else
    match cuDecompress data with
    | some out => .ok out
    | none => .error .decompressionFailed

/-- `decompress(data)` (zstd `compress.ts`). -/
def tsZstdDecompress (lib : ZstdLib) (data : Bytes) : Except ErrCode Bytes :=
  tsDecompressWith (zstdCuDecompress lib) data

/-! ### LZ4 adapter (from the LZ4 `binding.cpp` in the repository README) -/

/-- `LZ4_MAX_INPUT_SIZE` (0x7E000000, from `lz4.h`). -/
def LZ4_MAX_INPUT_SIZE : Nat := 2113929216

/-- `LZ4_compressBound` (`lz4.h` macro `LZ4_COMPRESSBOUND`):
`isize > LZ4_MAX_INPUT_SIZE ? 0 : isize + isize/255 + 16`. -/
def lz4CompressBound (n : Nat) : Int :=
  if n > LZ4_MAX_INPUT_SIZE then 0 else (n : Int) + (n / 255 : Nat) + 16

/-- The external LZ4 library functions used by the LZ4 binding.
`compressHC` is `LZ4_compress_HC (src, dst, srcSize, dstCapacity, level)`
(`none` models a return value ≤ 0); `decompressSafe` is
`LZ4_decompress_safe (src, dst, compressedSize, dstCapacity)` (`none`
models a negative return value). -/
structure Lz4Lib where
  compressHC : Bytes → Nat → Int → Option Bytes
  decompressSafe : Bytes → Nat → Option Bytes

/-- Documented contract of the LZ4 block API: compression into a
`LZ4_compressBound`-sized buffer succeeds for inputs within
`LZ4_MAX_INPUT_SIZE`, and `LZ4_decompress_safe` inverts `LZ4_compress_HC`
when the destination capacity equals the original length. -/
structure Lz4LibOk (lib : Lz4Lib) : Prop where
  compress_ok : ∀ input level, input.length ≤ LZ4_MAX_INPUT_SIZE →
    (lib.compressHC input (lz4CompressBound input.length).toNat level).isSome
  roundtrip : ∀ input cap level out, lib.compressHC input cap level = some out →
    lib.decompressSafe out input.length = some input

/-- The 4-byte little-endian length prefix written by the LZ4 adapter:
`output[i] = (input_len >> 8i) & 0xFF`. -/
def le32 (n : Nat) : Bytes :=
  [n % 256, n / 256 % 256, n / 65536 % 256, n / 16777216 % 256]

/-- Reading the 4-byte little-endian length prefix
(`input[0] | input[1] << 8 | input[2] << 16 | input[3] << 24`). -/
def readLE32 (b : Bytes) : Nat :=
  b.getD 0 0 + b.getD 1 0 * 256 + b.getD 2 0 * 65536 + b.getD 3 0 * 16777216

/-- `cu_compress` (LZ4 adapter): fail if `LZ4_compressBound` reports 0,
then emit the 4-byte little-endian original-length header followed by the
`LZ4_compress_HC` block. -/
def lz4CuCompress (lib : Lz4Lib) (input : Bytes) (level : Int) : Option Bytes :=
  let maxSize := lz4CompressBound input.length
  if maxSize ≤ 0 then none
  else
    match lib.compressHC input maxSize.toNat level with
    | none => none
    | some block => some (le32 input.length ++ block)

/-- `cu_decompress` (LZ4 adapter): require at least 4 input bytes, read the
little-endian original size, reject sizes above 2147483647, and call
`LZ4_decompress_safe` with the remaining bytes and exactly that capacity. -/
def lz4CuDecompress (lib : Lz4Lib) (input : Bytes) : Option Bytes :=
  if input.length < 4 then none
  else
    let originalSize := readLE32 input
    if originalSize > 2147483647 then none
    else lib.decompressSafe (input.drop 4) originalSize

/-! ### Brotli adapter (brotli WASM `binding.cpp`) -/

/-- Result of `BrotliDecoderDecompress`: success with the decoded bytes,
`BROTLI_DECODER_RESULT_NEEDS_MORE_OUTPUT`, or an error. -/
inductive BrotliResult
  | success (out : Bytes)
  | needsMoreOutput
  | decodeError
deriving DecidableEq, Repr

/-- The external brotli library functions used by the brotli `binding.cpp`.
`compressFn` is `BrotliEncoderCompress (quality, …, in, *encoded_size, out)`
with the destination capacity; `decompressFn` is `BrotliDecoderDecompress`
with the destination capacity. -/
structure BrotliLib where
  maxCompressedSize : Nat → Nat
  compressFn : Bytes → Nat → Int → Option Bytes
  decompressFn : Bytes → Nat → BrotliResult

/-- Documented contract of the brotli one-shot API: a stream produced by
`BrotliEncoderCompress` decodes back to the original input whenever the
destination capacity is at least the original length, and reports
`NEEDS_MORE_OUTPUT` (never success with truncated data) when it is not. -/
structure BrotliLibOk (lib : BrotliLib) : Prop where
  roundtrip : ∀ input cap level out, lib.compressFn input cap level = some out →
    ∀ cap2, (input.length ≤ cap2 → lib.decompressFn out cap2 = .success input) ∧
      (cap2 < input.length → lib.decompressFn out cap2 = .needsMoreOutput)

/-- `cu_compress` (brotli `binding.cpp`): size the buffer with
`BrotliEncoderMaxCompressedSize`, falling back to `input_len + 1024` when
it reports 0, and call `BrotliEncoderCompress` once. -/
def brotliCuCompress (lib : BrotliLib) (input : Bytes) (level : Int) : Option Bytes :=
  let m := lib.maxCompressedSize input.length
  let maxSize := if m = 0 then input.length + 1024 else m
  lib.compressFn input maxSize level

/-- The grow-and-retry loop of `cu_decompress` (brotli `binding.cpp`):
call `BrotliDecoderDecompress` at the current buffer size; while it
reports `NEEDS_MORE_OUTPUT` and retries remain, double the buffer and try
again.  `retriesLeft` is the remaining retry budget (10 at the top). -/
def brotliCuDecompressAux (lib : BrotliLib) (input : Bytes) :
    Nat → Nat → Option Bytes
  | allocSize, 0 =>
    match lib.decompressFn input allocSize with
    | .success out => some out
    | .decodeError => none
    | .needsMoreOutput => none
  | allocSize, r + 1 =>
    match lib.decompressFn input allocSize with
    | .success out => some out
    | .decodeError => none
    | .needsMoreOutput => brotliCuDecompressAux lib input (allocSize * 2) r

/-- `cu_decompress` (brotli `binding.cpp`): start from
`max(input_len * 4, 1024)` and run the grow-and-retry loop with a retry
budget of 10. -/
def brotliCuDecompress (lib : BrotliLib) (input : Bytes) : Option Bytes :=
  brotliCuDecompressAux lib input (max (input.length * 4) 1024) 10

/-! ### Zlib adapter (zlib WASM `binding.cpp`) -/

/-- Result of zlib `uncompress`: `Z_OK` with the decoded bytes,
`Z_BUF_ERROR` (destination too small), or another error. -/
inductive ZUncompressResult
  | okOut (out : Bytes)
  | bufError
  | zError
deriving DecidableEq, Repr

/-- The external zlib functions used by the zlib `binding.cpp`. -/
structure ZlibLib where
  compressBound : Nat → Nat
  compress2 : Bytes → Nat → Int → Option Bytes
  uncompress : Bytes → Nat → ZUncompressResult

/-- Documented contract of the zlib one-shot API: `uncompress` of a
`compress2`-produced stream succeeds whenever the destination capacity is
at least the original length, reports `Z_BUF_ERROR` when it is not, and
the deflate format expands by at most a factor 1032 (zlib's documented
maximum compression ratio). -/
structure ZlibLibOk (lib : ZlibLib) : Prop where
  roundtrip : ∀ input cap level out, lib.compress2 input cap level = some out →
    (∀ cap2, (input.length ≤ cap2 → lib.uncompress out cap2 = .okOut input) ∧
      (cap2 < input.length → lib.uncompress out cap2 = .bufError)) ∧
    input.length ≤ 1032 * out.length

/-- The grow-and-retry loop of `cu_decompress` (zlib `binding.cpp`): call
`uncompress` at the current buffer size; while it reports `Z_BUF_ERROR`
and retries remain, double the buffer and try again. -/
def zlibCuDecompressAux (lib : ZlibLib) (input : Bytes) :
    Nat → Nat → Option Bytes
  | allocSize, 0 =>
    match lib.uncompress input allocSize with
    | .okOut out => some out
    | .zError => none
    | .bufError => none
  | allocSize, r + 1 =>
    match lib.uncompress input allocSize with
    | .okOut out => some out
    | .zError => none
    | .bufError => zlibCuDecompressAux lib input (allocSize * 2) r

/-- `cu_decompress` (zlib `binding.cpp`): start from
`max(input_len * 4, 1024)` and run the grow-and-retry loop with a retry
budget of 10. -/
def zlibCuDecompress (lib : ZlibLib) (input : Bytes) : Option Bytes :=
  zlibCuDecompressAux lib input (max (input.length * 4) 1024) 10

/-! ### Concrete codec instances

Small executable instances of the codec contracts, used to witness the
hypothesis-bearing theorems and to exhibit concrete counterexample runs.
They satisfy exactly the documented contracts (`ZstdLibOk`, …): each test
codec encodes by prefixing a marker byte, so decoding is total and
capacity-sensitive in the way the real libraries are. -/

/-- Executable ZSTD instance: frames are `1 :: input`, the frame content
size is the frame length minus the marker. -/
def zstdLibW : ZstdLib where
  compressBound n := n + 1
  compressFn input cap _level := if input.length + 1 ≤ cap then some (1 :: input) else none
  getFrameContentSize b := .known (b.length - 1)
  decompressFn b cap := if b.length ≤ cap + 1 ∧ b ≠ [] then some b.tail else none

/-- Executable LZ4 instance: blocks are `2 :: input`. -/
def lz4LibW : Lz4Lib where
  compressHC input cap _level := if input.length + 1 ≤ cap then some (2 :: input) else none
  decompressSafe b cap := if b.length ≤ cap + 1 ∧ b ≠ [] then some b.tail else none

/-- Executable brotli instance: streams are `8 :: input`; decoding reports
`NEEDS_MORE_OUTPUT` whenever the destination capacity is below the
original length. -/
def brotliLibW : BrotliLib where
  maxCompressedSize n := n + 1
  compressFn input cap _level := if input.length + 1 ≤ cap then some (8 :: input) else none
  decompressFn b cap :=
    if b.head? = some 8 then
      (if b.length ≤ cap + 1 then .success b.tail else .needsMoreOutput)
    else .decodeError

/-- 2097152 (= 2^21) zero bytes: a highly compressible input. -/
def bigZeros : Bytes := List.replicate 2097152 0

/-- A brotli instance exhibiting the documented high-compressibility
behavior: the 2^21-zeros input compresses to the single-byte stream `[9]`,
and decoding `[9]` needs a 2^21-byte destination, reporting
`NEEDS_MORE_OUTPUT` below that.  All other inputs are marker-prefixed as
in `brotliLibW`. -/
def brotliLibCx : BrotliLib where
  maxCompressedSize _ := 0
  compressFn input cap _level :=
    if input = bigZeros then (if 1 ≤ cap then some [9] else none)
    else (if input.length + 1 ≤ cap then some (8 :: input) else none)
  decompressFn b cap :=
    if b = [9] then (if 2097152 ≤ cap then .success bigZeros else .needsMoreOutput)
    else if b.head? = some 8 then
      (if b.length ≤ cap + 1 then .success b.tail else .needsMoreOutput)
    else .decodeError

/-- A ZSTD instance whose frames do not record their content size and
whose decoder needs an 8192-byte destination (erroring below it, as
`ZSTD_decompress` does on a too-small destination). -/
def zstdLibCx : ZstdLib where
  compressBound n := n + 1
  compressFn input cap _level := if input.length + 1 ≤ cap then some (1 :: input) else none
  getFrameContentSize _ := .unknown
  decompressFn _ cap := if 8192 ≤ cap then some (List.replicate 8192 7) else none

/-- A 16-byte compressed input for the `zstdLibCx` runs. -/
def input16 : Bytes := List.replicate 16 1

/-- Executable zlib instance: `uncompress` succeeds at destination
capacities of at least 4096 and reports `Z_BUF_ERROR` below. -/
def zlibLibW : ZlibLib where
  compressBound n := n + 64
  compress2 input cap _level := if input.length ≤ cap then some input else none
  uncompress _ cap := if 4096 ≤ cap then .okOut [1, 2, 3] else .bufError

/-- A zlib instance whose `uncompress` reports `Z_BUF_ERROR` at every
destination capacity. -/
def zlibLibBuf : ZlibLib where
  compressBound n := n + 64
  compress2 input cap _level := if input.length ≤ cap then some input else none
  uncompress _ _ := .bufError


/-! ## Streaming session layer

The streaming state machines of the WASM bindings (`binding.cpp`) and the
TS `TransformStream` handlers (`stream.ts`), at the granularity the
streaming claims are about. -/

/-- `LZ4_STREAM_BLOCK_SIZE` (`BLOCK_SIZE` in the LZ4 adapter). -/
def LZ4_STREAM_BLOCK_SIZE : Nat := 65536

/-- `RING_BUFFER_SIZE` in the LZ4 adapter. -/
def LZ4_RING_BUFFER_SIZE : Nat := 65536

/-- State of the LZ4 streaming compression context: the blocks fed so far
to `LZ4_compress_HC_continue` (the codec's view of the stream, standing
for the ring buffer contents and encoder state), the ring position, and
the finished flag. -/
structure Lz4CompressStreamState where
  fedBlocks : List Bytes
  ringPos : Nat
  finished : Bool

/-- The external `LZ4_compress_HC_continue` function: previous blocks,
current block, destination capacity → compressed block (`none` models a
return value ≤ 0). -/
structure Lz4StreamLib where
  compressHCContinue : List Bytes → Bytes → Nat → Option Bytes

/-- `cu_stream_compress_write` (LZ4 adapter): a finished context returns
-1; the input is truncated to `BLOCK_SIZE` ("for simplicity, process
input in one block"), copied to the ring buffer, compressed as one block,
and the call returns `compressed + 4` (header plus payload) — the number
of input bytes actually consumed is not part of the return value. -/
def lz4StreamCompressWrite (lib : Lz4StreamLib) (st : Lz4CompressStreamState)
    (input : Bytes) (outputCap : Nat) : Int × Lz4CompressStreamState :=
  if st.finished then (-1, st)
  else
    let inputLen := min input.length LZ4_STREAM_BLOCK_SIZE
    let block := input.take LZ4_STREAM_BLOCK_SIZE
    match lib.compressHCContinue st.fedBlocks block (outputCap - 4) with
    | none => (-1, st)
    | some compressed =>
      ((compressed.length : Int) + 4,
       { fedBlocks := st.fedBlocks ++ [block],
         ringPos := (st.ringPos + inputLen) % LZ4_RING_BUFFER_SIZE,
         finished := st.finished })

/-- A concrete `LZ4_compress_HC_continue` instance: every block compresses
to the single byte `[0]` whenever at least one output byte fits. -/
def lz4StreamLibCx : Lz4StreamLib where
  compressHCContinue _ _ cap := if 1 ≤ cap then some [0] else none

/-- A chunk one byte longer than the LZ4 adapter block size. -/
def chunk65537 : Bytes := List.replicate 65537 0

/-- Streaming decompression context of the zstd/zlib bindings: the
`finished` flag, flipped by the write path when the codec reports the end
of the stream. -/
structure DecompressStreamCtx where
  finished : Bool

/-- `cu_stream_decompress_finish` (zstd/zlib `binding.cpp`): -1 for a
null context, else 1 if the finished flag was set, else 0. -/
def cuStreamDecompressFinish (ctx : Option DecompressStreamCtx) : Int :=
  match ctx with
  | none => -1
  | some c => if c.finished then 1 else 0

/-- The `flush` handler of the TS `DecompressStream` (zstd/zlib
`stream.ts`): it throws (`DecompressionFailed`) only when the adapter's
finish result is negative; any other value completes the stream. -/
def tsDecompressStreamFlush (finishResult : Int) : Except ErrCode Unit :=
  if finishResult < 0 then .error .decompressionFailed else .ok ()

/-- Streaming compression context of the zstd binding. -/
structure CompressStreamCtx where
  finished : Bool

/-- A call into the external streaming codec. -/
inductive ZstdStreamCall
  | compressStreamCall
  | endStreamCall
deriving DecidableEq, Repr

/-- `cu_stream_compress_write` (zstd `binding.cpp`), at the granularity of
its entry guard: a null or finished context returns -1 without touching
the codec; otherwise the `ZSTD_compressStream` loop runs (abstracted as
`codecRun`, which returns the bytes-written result together with the codec
calls it makes). -/
def cuStreamCompressWrite (codecRun : Bytes → Nat → Int × List ZstdStreamCall)
    (ctx : Option CompressStreamCtx) (input : Bytes) (outputCap : Nat) :
    Int × List ZstdStreamCall :=
  match ctx with
  | none => (-1, [])
  | some c =>
    if c.finished then (-1, [])
    else codecRun input outputCap

/-- `cu_stream_compress_finish` (zstd `binding.cpp`): only a null context
is rejected; `ZSTD_endStream` (abstracted as `endStreamRun`, returning the
remaining-bytes count and the output position, `none` on `ZSTD_isError`)
is invoked unconditionally — there is no finished-guard — and the flag is
set when it reports 0 remaining. -/
def cuStreamCompressFinish (endStreamRun : Nat → Option (Nat × Nat))
    (ctx : Option CompressStreamCtx) (outputCap : Nat) :
    Int × Option CompressStreamCtx × List ZstdStreamCall :=
  match ctx with
  | none => (-1, none, [])
  | some c =>
    match endStreamRun outputCap with
    | none => (-1, some c, [.endStreamCall])
    | some (remaining, outPos) =>
      if remaining = 0 then ((outPos : Int), some { c with finished := true }, [.endStreamCall])
      else ((outPos : Int), some c, [.endStreamCall])

/-- The error translation of the TS `CompressStream.transform` handler
(zstd `stream.ts`): a negative adapter result throws the generic
`CompressionFailed`. -/
def tsStreamWriteErr (result : Int) : Except ErrCode Unit :=
  if result < 0 then .error .compressionFailed else .ok ()

/-! ## Module lifecycle manager (`loader.ts`) -/

/-- The loader's state: the per-algorithm ready cache (`moduleCache`), the
per-algorithm in-flight initialization (`initPromises`, holding a promise
id), and a supply of fresh promise ids. -/
structure LoaderState where
  moduleCache : Algorithm → Option Nat
  initPromises : Algorithm → Option Nat
  nextPromise : Nat

/-- An event at the loader: a `getModule` call arriving (running
synchronously up to its first await), or the in-flight initialization for
an algorithm settling (the `try`/`finally` around `await initPromise`). -/
inductive LoaderEvent
  | request (a : Algorithm)
  | settleOk (a : Algorithm) (m : Nat)
  | settleErr (a : Algorithm)

/-- What a `getModule` call observes: the cached module, the pending
promise it attached to, or the fresh initialization it started. -/
inductive RequestOutcome
  | fromCache (m : Nat)
  | attached (p : Nat)
  | startedInit (p : Nat)
deriving DecidableEq, Repr

/-- `getModule` and its completion handling (`loader.ts`): check the cache
first; else attach to an in-flight initialization; else start one and
record it; on settlement the `finally` deletes the in-flight entry, and
success additionally populates the cache. -/
def loaderStep (s : LoaderState) : LoaderEvent → LoaderState × Option RequestOutcome
  | .request a =>
    match s.moduleCache a with
    | some m => (s, some (.fromCache m))
    | none =>
      match s.initPromises a with
      | some p => (s, some (.attached p))
      | none =>
        ({ moduleCache := s.moduleCache,
           initPromises := fun x => if x = a then some s.nextPromise else s.initPromises x,
           nextPromise := s.nextPromise + 1 },
         some (.startedInit s.nextPromise))
  | .settleOk a m =>
    ({ moduleCache := fun x => if x = a then some m else s.moduleCache x,
       initPromises := fun x => if x = a then none else s.initPromises x,
       nextPromise := s.nextPromise }, none)
  | .settleErr a =>
    ({ moduleCache := s.moduleCache,
       initPromises := fun x => if x = a then none else s.initPromises x,
       nextPromise := s.nextPromise }, none)

end CompressUtils

namespace CompressUtils

/-! ### Helper lemmas -/

theorem readLE32_le32 (n : Nat) (rest : Bytes) (h : n < 4294967296) :
    readLE32 (le32 n ++ rest) = n := by
  simp only [le32, readLE32, List.cons_append, List.getD, List.get?, Option.getD]
  omega

theorem le32_drop (n : Nat) (rest : Bytes) : (le32 n ++ rest).drop 4 = rest := rfl

/-- The LZ4 one-shot adapter round trip, under the LZ4 block contract. -/
theorem lz4_roundtrip_lemma (lib : Lz4Lib) (h : Lz4LibOk lib) (B : Bytes) (level : Int)
    (hlen : B.length ≤ LZ4_MAX_INPUT_SIZE) :
    ∃ block, lib.compressHC B (lz4CompressBound B.length).toNat level = some block ∧
      lz4CuCompress lib B level = some (le32 B.length ++ block) ∧
      lz4CuDecompress lib (le32 B.length ++ block) = some B := by
  obtain ⟨block, hblock⟩ := Option.isSome_iff_exists.mp (h.compress_ok B level hlen)
  have hpos : ¬ lz4CompressBound B.length ≤ 0 := by
    simp only [lz4CompressBound, if_neg (by omega : ¬ B.length > LZ4_MAX_INPUT_SIZE)]
    omega
  have h4 : ¬ (le32 B.length ++ block).length < 4 := by
    simp only [List.length_append, le32, List.length_cons, List.length_nil]
    omega
  have h32 : B.length < 4294967296 := by
    unfold LZ4_MAX_INPUT_SIZE at hlen
    omega
  have hsan : ¬ B.length > 2147483647 := by
    unfold LZ4_MAX_INPUT_SIZE at hlen
    omega
  refine ⟨block, hblock, ?_, ?_⟩
  · simp only [lz4CuCompress]
    rw [if_neg hpos, hblock]
  · simp only [lz4CuDecompress]
    rw [if_neg h4, readLE32_le32 _ _ h32, if_neg hsan, le32_drop]
    exact h.roundtrip B _ level block hblock

/-- The zstd caller-facing one-shot round trip, under the ZSTD contract. -/
theorem zstd_ts_roundtrip_lemma (zl : ZstdLib) (hz : ZstdLibOk zl) (B : Bytes)
    (level : JSLevel) (hlvl : ∃ n, normalizeLevel level .zstd = .ok n) :
    ∃ c, (tsZstdCompress zl B level).1 = .ok c ∧ tsZstdDecompress zl c = .ok B := by
  obtain ⟨n, hn⟩ := hlvl
  by_cases hB : B = []
  · subst hB
    obtain ⟨out, hout⟩ := Option.isSome_iff_exists.mp (hz.compress_ok [] 3)
    obtain ⟨hframe, hne, hdec⟩ := hz.compress_frame [] _ 3 out hout
    have hdec0 := hdec 0 (Nat.le_refl 0)
    refine ⟨out, ?_, ?_⟩
    · show (tsZstdCompressEmpty zl).1 = Except.ok out
      simp only [tsZstdCompressEmpty, zstdCuCompress, hout]
    · simp only [tsZstdDecompress, tsDecompressWith, if_neg hne, zstdCuDecompress, hframe,
        List.length_nil, hdec0]
  · obtain ⟨out, hout⟩ :=
      Option.isSome_iff_exists.mp (hz.compress_ok B (mapLevelToAlgorithm n .zstd))
    obtain ⟨hframe, hne, hdec⟩ := hz.compress_frame B _ _ out hout
    refine ⟨out, ?_, ?_⟩
    · simp only [tsZstdCompress, if_neg hB, getNativeLevel, hn, zstdCuCompress, hout]
    · simp only [tsZstdDecompress, tsDecompressWith, if_neg hne, zstdCuDecompress, hframe,
        hdec B.length (Nat.le_refl _)]

/-- The executable ZSTD instance satisfies the ZSTD contract. -/
theorem zstdLibW_ok : ZstdLibOk zstdLibW := by
  constructor
  · intro input level
    simp [zstdLibW]
  · intro input cap level out h
    simp only [zstdLibW] at h ⊢
    split at h
    · cases h
      refine ⟨rfl, by simp, ?_⟩
      intro cap2 hcap2
      rw [if_pos ⟨by simp only [List.length_cons]; omega, by simp⟩]
      rfl
    · cases h

/-- The executable LZ4 instance satisfies the LZ4 contract. -/
theorem lz4LibW_ok : Lz4LibOk lz4LibW := by
  constructor
  · intro input level hlen
    have : input.length + 1 ≤ (lz4CompressBound input.length).toNat := by
      simp only [lz4CompressBound, if_neg (by omega : ¬ input.length > LZ4_MAX_INPUT_SIZE)]
      omega
    simp [lz4LibW, this]
  · intro input cap level out h
    simp only [lz4LibW] at h ⊢
    split at h
    · cases h
      rw [if_pos ⟨by simp only [List.length_cons]; omega, by simp⟩]
      rfl
    · cases h

/-- The executable brotli instance satisfies the brotli contract. -/
theorem brotliLibW_ok : BrotliLibOk brotliLibW := by
  constructor
  intro input cap level out h cap2
  simp only [brotliLibW] at h ⊢
  split at h
  · cases h
    constructor
    · intro hcap2
      rw [if_pos (by simp), if_pos (by simp only [List.length_cons]; omega)]
      rfl
    · intro hcap2
      rw [if_pos (by simp), if_neg (by simp only [List.length_cons]; omega)]
  · cases h

/-- The `brotliLibCx` instance satisfies the brotli contract. -/
theorem brotliLibCx_ok : BrotliLibOk brotliLibCx := by
  constructor
  intro input cap level out h cap2
  simp only [brotliLibCx] at h ⊢
  by_cases hbig : input = bigZeros
  · rw [if_pos hbig] at h
    split at h
    · cases h
      have hlen : input.length = 2097152 := by
        rw [hbig]
        simp only [bigZeros, List.length_replicate]
      constructor
      · intro hcap2
        rw [if_pos rfl, if_pos (by omega), hbig]
      · intro hcap2
        rw [if_pos rfl, if_neg (by omega)]
    · cases h
  · rw [if_neg hbig] at h
    split at h
    · cases h
      have h9 : ¬ (8 :: input = [9]) := by simp
      constructor
      · intro hcap2
        rw [if_neg h9, if_pos (by simp), if_pos (by simp only [List.length_cons]; omega)]
        rfl
      · intro hcap2
        rw [if_neg h9, if_pos (by simp), if_neg (by simp only [List.length_cons]; omega)]
    · cases h

/-- Success of the zlib grow-and-retry loop: if `uncompress` succeeds at
the `k`-th doubling, reporting `Z_BUF_ERROR` at every smaller capacity in
the schedule, and `k` is within the remaining budget, the loop returns
that output. -/
theorem zlibAux_succeeds (lib : ZlibLib) (B out : Bytes) :
    ∀ (k fuel alloc : Nat), k ≤ fuel →
      lib.uncompress B (alloc * 2 ^ k) = .okOut out →
      (∀ j, j < k → lib.uncompress B (alloc * 2 ^ j) = .bufError) →
      zlibCuDecompressAux lib B alloc fuel = some out := by
  intro k
  induction k with
  | zero =>
    intro fuel alloc _ hok _
    rw [pow_zero, mul_one] at hok
    cases fuel with
    | zero => simp only [zlibCuDecompressAux, hok]
    | succ f => simp only [zlibCuDecompressAux, hok]
  | succ k ih =>
    intro fuel alloc hk hok hbuf
    have h0 : lib.uncompress B alloc = .bufError := by
      have := hbuf 0 (Nat.succ_pos k)
      rwa [pow_zero, mul_one] at this
    cases fuel with
    | zero => omega
    | succ f =>
      simp only [zlibCuDecompressAux, h0]
      refine ih f (alloc * 2) (by omega) ?_ ?_
      · rw [show alloc * 2 * 2 ^ k = alloc * 2 ^ (k + 1) by ring]
        exact hok
      · intro j hj
        rw [show alloc * 2 * 2 ^ j = alloc * 2 ^ (j + 1) by ring]
        exact hbuf (j + 1) (by omega)

/-- Exhaustion of the zlib grow-and-retry loop: if `uncompress` reports
`Z_BUF_ERROR` at every capacity in the schedule, the loop returns null. -/
theorem zlibAux_exhausts (lib : ZlibLib) (B : Bytes) :
    ∀ (fuel alloc : Nat),
      (∀ j, j ≤ fuel → lib.uncompress B (alloc * 2 ^ j) = .bufError) →
      zlibCuDecompressAux lib B alloc fuel = none := by
  intro fuel
  induction fuel with
  | zero =>
    intro alloc hbuf
    have h0 := hbuf 0 (Nat.le_refl 0)
    rw [pow_zero, mul_one] at h0
    simp only [zlibCuDecompressAux, h0]
  | succ f ih =>
    intro alloc hbuf
    have h0 := hbuf 0 (Nat.zero_le _)
    rw [pow_zero, mul_one] at h0
    simp only [zlibCuDecompressAux, h0]
    refine ih (alloc * 2) ?_
    intro j hj
    rw [show alloc * 2 * 2 ^ j = alloc * 2 ^ (j + 1) by ring]
    exact hbuf (j + 1) (by omega)

end CompressUtils

namespace CompressUtils

/-- C5: for every algorithm and every unified level `u` in [1,10], the code's
mapping agrees with the spec's linear-interpolation formula
`min + round((u-1)/9 * (max-min))`; level 1 maps to the algorithm minimum,
level 10 to its maximum, and the mapping is non-decreasing in the unified
level. -/
theorem mapLevel_matches_interpolation (a : Algorithm) (u v : Int)
    (hu : 1 ≤ u) (huv : u ≤ v) (hv : v ≤ 10) :
    mapLevelToAlgorithm u a = mapToNativeSpecFormula u a ∧
    mapLevelToAlgorithm 1 a = ALGORITHM_MIN_LEVELS a ∧
    mapLevelToAlgorithm 10 a = ALGORITHM_MAX_LEVELS a ∧
    mapLevelToAlgorithm u a ≤ mapLevelToAlgorithm v a := by
  have hu10 : u ≤ 10 := le_trans huv hv
  have hv1 : 1 ≤ v := le_trans hu huv
  cases a <;> interval_cases u <;> interval_cases v <;> decide

/-- Witness for C5 at a concrete input: zstd, unified levels 3 ≤ 7. -/
theorem mapLevel_matches_interpolation_witness :
    mapLevelToAlgorithm 3 .zstd = mapToNativeSpecFormula 3 .zstd ∧
    mapLevelToAlgorithm 1 .zstd = ALGORITHM_MIN_LEVELS .zstd ∧
    mapLevelToAlgorithm 10 .zstd = ALGORITHM_MAX_LEVELS .zstd ∧
    mapLevelToAlgorithm 3 .zstd ≤ mapLevelToAlgorithm 7 .zstd :=
  mapLevel_matches_interpolation .zstd 3 7 (by decide) (by decide) (by decide)

/-- C6: for every algorithm, `normalizeLevel(undefined, A) = 5`; the presets
map fast ↦ 1, balanced ↦ 5, best ↦ 10; every non-integer number, every
integer outside [1,10], and every unrecognized string fail with
`InvalidLevel` (never clamped). -/
theorem normalizeLevel_spec (a : Algorithm) :
    normalizeLevel .undef a = .ok 5 ∧
    normalizeLevel (.str "fast") a = .ok 1 ∧
    normalizeLevel (.str "balanced") a = .ok 5 ∧
    normalizeLevel (.str "best") a = .ok 10 ∧
    (∀ x : Rat, x.den ≠ 1 → normalizeLevel (.num x) a = .error .invalidLevel) ∧
    (∀ n : Int, n < 1 ∨ 10 < n → normalizeLevel (.num (Rat.ofInt n)) a = .error .invalidLevel) ∧
    (∀ s : String, PRESET_TO_LEVEL s = none → normalizeLevel (.str s) a = .error .invalidLevel) := by
  refine ⟨rfl, rfl, rfl, rfl, ?_, ?_, ?_⟩
  · intro x hx
    simp only [normalizeLevel]
    rw [if_neg]
    intro h
    exact hx h.1
  · intro n hn
    simp only [normalizeLevel]
    rw [if_neg]
    intro h
    have hden : (Rat.ofInt n).num = n := rfl
    rw [hden] at h
    rcases hn with h1 | h1 <;> omega
  · intro s hs
    simp only [normalizeLevel, hs]

/-- Witness for C6 at concrete inputs: level 0, level 11, a non-integer
level 3/2, and the string "bogus" are all rejected for zstd. -/
theorem normalizeLevel_spec_witness :
    normalizeLevel (.num (Rat.ofInt 0)) .zstd = .error .invalidLevel ∧
    normalizeLevel (.num (Rat.ofInt 11)) .zstd = .error .invalidLevel ∧
    normalizeLevel (.num (⟨3, 2, by decide, by decide⟩ : Rat)) .zstd = .error .invalidLevel ∧
    normalizeLevel (.str "bogus") .zstd = .error .invalidLevel ∧
    normalizeLevel .undef .zstd = .ok 5 :=
  ⟨(normalizeLevel_spec .zstd).2.2.2.2.2.1 0 (by decide),
   (normalizeLevel_spec .zstd).2.2.2.2.2.1 11 (by decide),
   (normalizeLevel_spec .zstd).2.2.2.2.1 _ (by decide),
   (normalizeLevel_spec .zstd).2.2.2.2.2.2 "bogus" (by decide),
   (normalizeLevel_spec .zstd).1⟩

end CompressUtils

namespace CompressUtils

/-- The brotli grow-and-retry loop returns immediately when the decoder
succeeds at the current buffer size. -/
theorem brotliAux_success (lib : BrotliLib) (input : Bytes) (alloc fuel : Nat)
    (out : Bytes) (h : lib.decompressFn input alloc = .success out) :
    brotliCuDecompressAux lib input alloc fuel = some out := by
  cases fuel with
  | zero => simp only [brotliCuDecompressAux, h]
  | succ f => simp only [brotliCuDecompressAux, h]

/-- C7: every LZ4 one-shot compressed payload begins with a 4-byte
little-endian field holding the original input length, followed by the
compressed block; one-shot decompression reads that field to size its
output (it calls the block decoder with exactly the header value as
destination capacity); compressing a 0-byte input produces the header
`0x00000000` and decompressing the payload yields exactly 0 bytes. -/
theorem lz4_payload_framing (lib : Lz4Lib) (h : Lz4LibOk lib) (B : Bytes) (level : Int)
    (hlen : B.length ≤ LZ4_MAX_INPUT_SIZE) :
    ∃ block, lz4CuCompress lib B level = some (le32 B.length ++ block) ∧
      (le32 B.length ++ block).take 4 = le32 B.length ∧
      readLE32 (le32 B.length ++ block) = B.length ∧
      lz4CuDecompress lib (le32 B.length ++ block) =
        lib.decompressSafe ((le32 B.length ++ block).drop 4) B.length ∧
      lz4CuDecompress lib (le32 B.length ++ block) = some B ∧
      (B = [] → le32 B.length = [0, 0, 0, 0]) := by
  obtain ⟨block, _, hcomp, hdec⟩ := lz4_roundtrip_lemma lib h B level hlen
  have h32 : B.length < 4294967296 := by
    unfold LZ4_MAX_INPUT_SIZE at hlen
    omega
  refine ⟨block, hcomp, ?_, readLE32_le32 _ _ h32, ?_, hdec, ?_⟩
  · rw [show (4 : Nat) = (le32 B.length).length from rfl, List.take_left]
  · simp only [lz4CuDecompress]
    rw [if_neg (by simp only [List.length_append, le32, List.length_cons, List.length_nil]; omega),
      readLE32_le32 _ _ h32,
      if_neg (by unfold LZ4_MAX_INPUT_SIZE at hlen; omega)]
  · intro hB
    subst hB
    rfl

/-- Witness for C7 at a concrete input: the empty byte sequence through
the executable LZ4 instance. -/
theorem lz4_payload_framing_witness :
    (List.length ([] : Bytes) ≤ LZ4_MAX_INPUT_SIZE) ∧
    (∃ block, lz4CuCompress lz4LibW [] 9 = some (le32 (List.length ([] : Bytes)) ++ block) ∧
      (le32 (List.length ([] : Bytes)) ++ block).take 4 = le32 (List.length ([] : Bytes)) ∧
      readLE32 (le32 (List.length ([] : Bytes)) ++ block) = List.length ([] : Bytes) ∧
      lz4CuDecompress lz4LibW (le32 (List.length ([] : Bytes)) ++ block) =
        lz4LibW.decompressSafe ((le32 (List.length ([] : Bytes)) ++ block).drop 4)
          (List.length ([] : Bytes)) ∧
      lz4CuDecompress lz4LibW (le32 (List.length ([] : Bytes)) ++ block) = some [] ∧
      (([] : Bytes) = [] → le32 (List.length ([] : Bytes)) = [0, 0, 0, 0])) :=
  ⟨by decide, lz4_payload_framing lz4LibW lz4LibW_ok [] 9 (by decide)⟩

/-- C10: zstd one-shot compression of a zero-length input goes through
`compressEmpty`, which invokes the codec at the fixed native level 3
regardless of the level the caller requested: for any two valid levels
the call made to the WASM module is identical (`compress([], 3)`) and the
returned bytes are equal. -/
theorem zstd_compress_empty_level_independent (lib : ZstdLib) (l1 l2 : JSLevel)
    (h1 : ∃ n, normalizeLevel l1 .zstd = .ok n)
    (h2 : ∃ n, normalizeLevel l2 .zstd = .ok n) :
    tsZstdCompress lib [] l1 = tsZstdCompress lib [] l2 ∧
    (tsZstdCompress lib [] l1).2 = [.compressCall [] 3] ∧
    (tsZstdCompress lib [] l1).1 = (tsZstdCompressEmpty lib).1 :=
  ⟨rfl, rfl, rfl⟩

/-- Witness for C10 at concrete inputs: levels 1 and 10 through the
executable ZSTD instance. -/
theorem zstd_compress_empty_level_independent_witness :
    (∃ n, normalizeLevel (.num (Rat.ofInt 1)) .zstd = .ok n) ∧
    (∃ n, normalizeLevel (.num (Rat.ofInt 10)) .zstd = .ok n) ∧
    (tsZstdCompress zstdLibW [] (.num (Rat.ofInt 1)) =
        tsZstdCompress zstdLibW [] (.num (Rat.ofInt 10)) ∧
      (tsZstdCompress zstdLibW [] (.num (Rat.ofInt 1))).2 = [.compressCall [] 3] ∧
      (tsZstdCompress zstdLibW [] (.num (Rat.ofInt 1))).1 = (tsZstdCompressEmpty zstdLibW).1) :=
  ⟨⟨1, rfl⟩, ⟨10, rfl⟩,
   zstd_compress_empty_level_independent zstdLibW _ _ ⟨1, rfl⟩ ⟨10, rfl⟩⟩

/-- C1 counterexample: the one-shot round trip fails on the brotli adapter
for a highly compressible input.  `brotliLibCx` satisfies the documented
brotli contract, compressing 2^21 zero bytes to the one-byte stream `[9]`;
`cu_compress` succeeds, but `cu_decompress` starts at
`max(4 * 1, 1024) = 1024` bytes and its retry budget of 10 doublings only
reaches 2^20 < 2^21, so it returns null and the round trip does not
reproduce the input. -/
theorem oneshot_roundtrip_counterexample :
    BrotliLibOk brotliLibCx ∧
    brotliCuCompress brotliLibCx bigZeros 11 = some [9] ∧
    brotliCuDecompress brotliLibCx [9] = none := by
  refine ⟨brotliLibCx_ok, ?_, ?_⟩
  · simp only [brotliCuCompress, brotliLibCx, eq_self_iff_true, if_true]
    rw [if_pos (by omega : (1 : Nat) ≤ bigZeros.length + 1024)]
  · decide

/-- C1 amended: the one-shot round trip holds unconditionally (given the
codec contracts) for the zstd caller-facing surface and the LZ4 adapter,
whose decompressors learn the exact output size from the frame header
resp. the length prefix; for the retry-based brotli adapter it holds when
the original length is within the initial buffer estimate (e.g. ≤ 1024). -/
theorem oneshot_roundtrip_amended
    (zl : ZstdLib) (hz : ZstdLibOk zl) (l4 : Lz4Lib) (h4 : Lz4LibOk l4)
    (bl : BrotliLib) (hb : BrotliLibOk bl)
    (B : Bytes) (level : JSLevel) (hlvl : ∃ n, normalizeLevel level .zstd = .ok n)
    (lvl4 lvlB : Int) (hlen : B.length ≤ LZ4_MAX_INPUT_SIZE) :
    (∃ c, (tsZstdCompress zl B level).1 = .ok c ∧ tsZstdDecompress zl c = .ok B) ∧
    (∃ c, lz4CuCompress l4 B lvl4 = some c ∧ lz4CuDecompress l4 c = some B) ∧
    (B.length ≤ 1024 →
      ∀ c, brotliCuCompress bl B lvlB = some c → brotliCuDecompress bl c = some B) := by
  refine ⟨zstd_ts_roundtrip_lemma zl hz B level hlvl, ?_, ?_⟩
  · obtain ⟨block, _, hcomp, hdec⟩ := lz4_roundtrip_lemma l4 h4 B lvl4 hlen
    exact ⟨_, hcomp, hdec⟩
  · intro hsmall c hc
    have hcap : B.length ≤ max (c.length * 4) 1024 :=
      le_trans hsmall (le_max_right _ _)
    have hsucc := (hb.roundtrip B _ lvlB c hc (max (c.length * 4) 1024)).1 hcap
    exact brotliAux_success bl c _ 10 B hsucc

/-- Witness for C1 (amended) at a concrete input: the two-byte sequence
`[42, 7]` at unified level 5 through the executable codec instances. -/
theorem oneshot_roundtrip_amended_witness :
    (∃ n, normalizeLevel (.num (Rat.ofInt 5)) .zstd = .ok n) ∧
    ([42, 7] : Bytes).length ≤ LZ4_MAX_INPUT_SIZE ∧
    ((∃ c, (tsZstdCompress zstdLibW [42, 7] (.num (Rat.ofInt 5))).1 = .ok c ∧
        tsZstdDecompress zstdLibW c = .ok [42, 7]) ∧
     (∃ c, lz4CuCompress lz4LibW [42, 7] 9 = some c ∧
        lz4CuDecompress lz4LibW c = some [42, 7]) ∧
     (([42, 7] : Bytes).length ≤ 1024 →
       ∀ c, brotliCuCompress brotliLibW [42, 7] 11 = some c →
         brotliCuDecompress brotliLibW c = some [42, 7])) :=
  ⟨⟨5, rfl⟩, by decide,
   oneshot_roundtrip_amended zstdLibW zstdLibW_ok lz4LibW lz4LibW_ok
     brotliLibW brotliLibW_ok [42, 7] (.num (Rat.ofInt 5)) ⟨5, rfl⟩ 9 11 (by decide)⟩

/-- C4 counterexample: the zstd one-shot decompressor does not retry at
all.  With a frame of unknown content size whose decoder needs an
8192-byte destination (three doublings away from the initial 1024-byte
estimate, well within a 10-retry budget), the operation fails with the
generic `DecompressionFailed` — it neither retries with a doubled buffer
nor reports `BufferTooSmall`. -/
theorem decompress_retry_counterexample :
    zstdLibCx.getFrameContentSize input16 = .unknown ∧
    zstdLibCx.decompressFn input16 (max (input16.length * 4) 1024 * 2 ^ 3) =
      some (List.replicate 8192 7) ∧
    (3 : Nat) ≤ 10 ∧
    tsZstdDecompress zstdLibCx input16 = .error .decompressionFailed :=
  ⟨rfl, rfl, by decide, rfl⟩

/-- C4 amended: the zlib (like the brotli and xz) one-shot decompressor
doubles the buffer and retries, up to a retry budget of 10, on the codec's
insufficient-buffer signal: it succeeds as soon as a doubling within the
budget does, and on exhausting the budget fails with the generic
`DecompressionFailed` (a null pointer at the adapter boundary), not
`BufferTooSmall`; the zstd one-shot decompressor performs a single
attempt. -/
theorem zlib_decompress_retry (lib : ZlibLib) (B out : Bytes) :
    (∀ k, k ≤ 10 →
      lib.uncompress B (max (B.length * 4) 1024 * 2 ^ k) = .okOut out →
      (∀ j, j < k → lib.uncompress B (max (B.length * 4) 1024 * 2 ^ j) = .bufError) →
      zlibCuDecompress lib B = some out) ∧
    ((∀ j, j ≤ 10 → lib.uncompress B (max (B.length * 4) 1024 * 2 ^ j) = .bufError) →
      zlibCuDecompress lib B = none ∧
      (B ≠ [] → tsDecompressWith (zlibCuDecompress lib) B = .error .decompressionFailed)) := by
  constructor
  · intro k hk hok hbuf
    exact zlibAux_succeeds lib B out k 10 (max (B.length * 4) 1024) hk hok hbuf
  · intro hbuf
    have hnone := zlibAux_exhausts lib B 10 (max (B.length * 4) 1024) hbuf
    refine ⟨hnone, ?_⟩
    intro hB
    simp only [tsDecompressWith, if_neg hB, zlibCuDecompress, hnone]

/-- Witness for C4 (amended) at concrete inputs: a codec that succeeds at
the second doubling, and a codec that reports `Z_BUF_ERROR` forever. -/
theorem zlib_decompress_retry_witness :
    ((2 : Nat) ≤ 10 ∧
      zlibLibW.uncompress [5] (max (([5] : Bytes).length * 4) 1024 * 2 ^ 2) = .okOut [1, 2, 3]) ∧
    zlibCuDecompress zlibLibW [5] = some [1, 2, 3] ∧
    zlibCuDecompress zlibLibBuf [5] = none ∧
    tsDecompressWith (zlibCuDecompress zlibLibBuf) [5] = .error .decompressionFailed := by
  refine ⟨⟨by decide, by decide⟩, ?_, ?_, ?_⟩
  · refine (zlib_decompress_retry zlibLibW [5] [1, 2, 3]).1 2 (by decide) (by decide) ?_
    intro j hj
    interval_cases j <;> decide
  · exact ((zlib_decompress_retry zlibLibBuf [5] []).2 (fun j _ => rfl)).1
  · exact ((zlib_decompress_retry zlibLibBuf [5] []).2 (fun j _ => rfl)).2 (by decide)

end CompressUtils

namespace CompressUtils

/-- For any chunk, the LZ4 adapter write compresses only the first
`BLOCK_SIZE` bytes, feeds exactly those to the codec, and (under
`lz4StreamLibCx`) reports the 5-byte success result. -/
theorem lz4StreamWrite_truncates (chunk : Bytes) :
    lz4StreamCompressWrite lz4StreamLibCx ⟨[], 0, false⟩ chunk 65536 =
      (5, { fedBlocks := [chunk.take LZ4_STREAM_BLOCK_SIZE],
            ringPos := (0 + min chunk.length LZ4_STREAM_BLOCK_SIZE) % LZ4_RING_BUFFER_SIZE,
            finished := false }) := by
  simp only [lz4StreamCompressWrite]
  norm_num [lz4StreamLibCx]

/-- C2: the streaming write path drops input bytes.  Run at the failing
input — a 65537-byte chunk (one byte beyond the adapter's 64 KiB block
size) — the LZ4 adapter's `cu_stream_compress_write` truncates the chunk
to 65536 bytes, feeds only those to the codec, and reports success
(a positive bytes-written value carrying no consumption information), so
the session layer — which treats any non-negative result as full
consumption of the chunk — silently drops the final byte instead of
looping until the adapter has consumed the entire chunk. -/
theorem stream_write_drops_bytes :
    (lz4StreamCompressWrite lz4StreamLibCx ⟨[], 0, false⟩ chunk65537 65536).1 = 5 ∧
    0 ≤ (lz4StreamCompressWrite lz4StreamLibCx ⟨[], 0, false⟩ chunk65537 65536).1 ∧
    ((lz4StreamCompressWrite lz4StreamLibCx ⟨[], 0, false⟩ chunk65537 65536).2.fedBlocks.map
      List.length).sum = 65536 ∧
    chunk65537.length = 65537 := by
  have hlen : chunk65537.length = 65537 := by
    simp only [chunk65537, List.length_replicate]
  rw [lz4StreamWrite_truncates chunk65537]
  refine ⟨rfl, by norm_num, ?_, hlen⟩
  simp only [List.map_cons, List.map_nil, List.sum_cons, List.sum_nil, Nat.add_zero,
    List.length_take, hlen, LZ4_STREAM_BLOCK_SIZE]
  rw [Nat.min_eq_left (by norm_num)]

/-- C3 counterexample: a streaming decompression session whose decoder has
not signalled completion (`finished = false`).  The adapter's finish
reports 0 ('not done'), and the session's flush accepts it silently — it
does not report `UnexpectedEof` or any other error. -/
theorem premature_eof_counterexample :
    cuStreamDecompressFinish (some ⟨false⟩) = 0 ∧
    tsDecompressStreamFlush (cuStreamDecompressFinish (some ⟨false⟩)) = .ok () ∧
    ∀ e : ErrCode, tsDecompressStreamFlush (cuStreamDecompressFinish (some ⟨false⟩)) ≠ .error e := by
  refine ⟨rfl, rfl, ?_⟩
  intro e h
  exact Except.noConfusion h

/-- C3 amended: the session's flush reports an error only when the
adapter's finish result is negative (a null context); a 0 ('not done')
report — premature EOF — completes the stream silently, with no
`UnexpectedEof`. -/
theorem flush_silent_on_premature_eof (c : DecompressStreamCtx)
    (h : c.finished = false) :
    cuStreamDecompressFinish (some c) = 0 ∧
    tsDecompressStreamFlush (cuStreamDecompressFinish (some c)) = .ok () ∧
    (∀ r : Int, tsDecompressStreamFlush r = .ok () ↔ 0 ≤ r) := by
  have h0 : cuStreamDecompressFinish (some c) = 0 := by
    simp [cuStreamDecompressFinish, h]
  refine ⟨h0, by rw [h0]; rfl, ?_⟩
  intro r
  constructor
  · intro hr
    by_contra hneg
    unfold tsDecompressStreamFlush at hr
    rw [if_pos (by omega : r < 0)] at hr
    exact Except.noConfusion hr
  · intro hr
    unfold tsDecompressStreamFlush
    rw [if_neg (by omega : ¬ r < 0)]

/-- Witness for C3 (amended) at a concrete input: a live context whose
decoder has not finished. -/
theorem flush_silent_on_premature_eof_witness :
    ((⟨false⟩ : DecompressStreamCtx).finished = false) ∧
    (cuStreamDecompressFinish (some ⟨false⟩) = 0 ∧
      tsDecompressStreamFlush (cuStreamDecompressFinish (some ⟨false⟩)) = .ok () ∧
      (∀ r : Int, tsDecompressStreamFlush r = .ok () ↔ 0 ≤ r)) :=
  ⟨rfl, flush_silent_on_premature_eof ⟨false⟩ rfl⟩

/-- C8 counterexample: a streaming compression session in the Finished
state.  A further write is rejected with the raw -1, which the session
surfaces as the generic `CompressionFailed` — not `StreamAlreadyFinished`
— and a further finish is not guarded at all: it invokes the codec's
`ZSTD_endStream` again. -/
theorem session_terminal_state_counterexample :
    cuStreamCompressWrite (fun _ _ => (1, [.compressStreamCall])) (some ⟨true⟩) [1] 16 =
      (-1, []) ∧
    tsStreamWriteErr
        (cuStreamCompressWrite (fun _ _ => (1, [.compressStreamCall])) (some ⟨true⟩) [1] 16).1 =
      .error .compressionFailed ∧
    tsStreamWriteErr
        (cuStreamCompressWrite (fun _ _ => (1, [.compressStreamCall])) (some ⟨true⟩) [1] 16).1 ≠
      .error .streamAlreadyFinished ∧
    (cuStreamCompressFinish (fun _ => some (0, 0)) (some ⟨true⟩) 16).2.2 = [.endStreamCall] := by
  refine ⟨rfl, rfl, ?_, rfl⟩
  intro h
  exact ErrCode.noConfusion (Except.error.inj h)

/-- C8 amended: on a session whose context is in the Finished state, a
further adapter write returns -1 without invoking the codec, and the
session layer surfaces it as the generic `CompressionFailed` (the
`StreamAlreadyFinished` code exists in the taxonomy but is never raised);
a further adapter finish is not guarded and invokes the codec's end-stream
again; the decompression-side finish check reports done (1), a success. -/
theorem session_terminal_state_amended (c : CompressStreamCtx) (h : c.finished = true)
    (codecRun : Bytes → Nat → Int × List ZstdStreamCall) (input : Bytes) (outputCap : Nat)
    (endStreamRun : Nat → Option (Nat × Nat)) :
    cuStreamCompressWrite codecRun (some c) input outputCap = (-1, []) ∧
    tsStreamWriteErr (cuStreamCompressWrite codecRun (some c) input outputCap).1 =
      .error .compressionFailed ∧
    tsStreamWriteErr (cuStreamCompressWrite codecRun (some c) input outputCap).1 ≠
      .error .streamAlreadyFinished ∧
    (cuStreamCompressFinish endStreamRun (some c) outputCap).2.2 = [.endStreamCall] ∧
    cuStreamDecompressFinish (some ⟨true⟩) = 1 := by
  have hw : cuStreamCompressWrite codecRun (some c) input outputCap = (-1, []) := by
    simp [cuStreamCompressWrite, h]
  refine ⟨hw, by rw [hw]; rfl, ?_, ?_, rfl⟩
  · rw [hw]
    intro hcon
    exact ErrCode.noConfusion (Except.error.inj hcon)
  · cases hE : endStreamRun outputCap with
    | none => simp [cuStreamCompressFinish, hE]
    | some rp =>
      cases rp with
      | mk r p =>
        by_cases hr : r = 0 <;> simp [cuStreamCompressFinish, hE, hr]

/-- Witness for C8 (amended) at a concrete input: a finished context, a
codec write returning 1, and an end-stream reporting completion. -/
theorem session_terminal_state_amended_witness :
    ((⟨true⟩ : CompressStreamCtx).finished = true) ∧
    (cuStreamCompressWrite (fun _ _ => (7, [.compressStreamCall])) (some ⟨true⟩) [3, 4] 32 =
        (-1, []) ∧
      tsStreamWriteErr
          (cuStreamCompressWrite (fun _ _ => (7, [.compressStreamCall])) (some ⟨true⟩) [3, 4] 32).1 =
        .error .compressionFailed ∧
      tsStreamWriteErr
          (cuStreamCompressWrite (fun _ _ => (7, [.compressStreamCall])) (some ⟨true⟩) [3, 4] 32).1 ≠
        .error .streamAlreadyFinished ∧
      (cuStreamCompressFinish (fun _ => some (0, 2)) (some ⟨true⟩) 32).2.2 = [.endStreamCall] ∧
      cuStreamDecompressFinish (some ⟨true⟩) = 1) :=
  ⟨rfl, session_terminal_state_amended ⟨true⟩ rfl
    (fun _ _ => (7, [.compressStreamCall])) [3, 4] 32 (fun _ => some (0, 2))⟩

/-- C9: the loader's single-flight behavior.  A `getModule` request starts
a new initialization only when nothing is cached or in flight for that
algorithm; while one is in flight a request attaches to it (the state is
unchanged and no second initialization starts); a cached module is
returned immediately; settlement clears the in-flight marker, success
populates the cache, and failure leaves the cache untouched so that a
subsequent request starts a fresh initialization. -/
theorem loader_single_flight (s : LoaderState) (a : Algorithm) (m p : Nat) :
    (∀ q, (loaderStep s (.request a)).2 = some (.startedInit q) →
      s.moduleCache a = none ∧ s.initPromises a = none) ∧
    (s.moduleCache a = none → s.initPromises a = some p →
      loaderStep s (.request a) = (s, some (.attached p))) ∧
    (s.moduleCache a = some m → loaderStep s (.request a) = (s, some (.fromCache m))) ∧
    ((loaderStep s (.settleOk a m)).1.initPromises a = none ∧
      (loaderStep s (.settleOk a m)).1.moduleCache a = some m) ∧
    ((loaderStep s (.settleErr a)).1.initPromises a = none ∧
      (loaderStep s (.settleErr a)).1.moduleCache a = s.moduleCache a ∧
      (s.moduleCache a = none →
        (loaderStep (loaderStep s (.settleErr a)).1 (.request a)).2 =
          some (.startedInit s.nextPromise))) := by
  refine ⟨?_, ?_, ?_, ⟨by simp [loaderStep], by simp [loaderStep]⟩, ?_⟩
  · intro q hq
    cases hc : s.moduleCache a with
    | some m' => simp [loaderStep, hc] at hq
    | none =>
      cases hp : s.initPromises a with
      | some p' => simp [loaderStep, hc, hp] at hq
      | none => exact ⟨rfl, rfl⟩
  · intro hc hp
    simp [loaderStep, hc, hp]
  · intro hc
    simp [loaderStep, hc]
  · refine ⟨by simp [loaderStep], by simp [loaderStep], ?_⟩
    intro hc
    simp [loaderStep, hc]

/-- Witness for C9 at a concrete input: a state with an initialization in
flight for zstd. -/
theorem loader_single_flight_witness :
    (∀ q,
      (loaderStep ⟨fun _ => none, fun x => if x = .zstd then some 3 else none, 4⟩
        (.request .zstd)).2 = some (.startedInit q) →
      (fun _ => none : Algorithm → Option Nat) .zstd = none ∧
      (fun x => if x = .zstd then some 3 else none : Algorithm → Option Nat) .zstd = none) ∧
    ((fun _ => none : Algorithm → Option Nat) .zstd = none →
      (fun x => if x = .zstd then some 3 else none : Algorithm → Option Nat) .zstd = some 3 →
      loaderStep ⟨fun _ => none, fun x => if x = .zstd then some 3 else none, 4⟩
        (.request .zstd) =
        (⟨fun _ => none, fun x => if x = .zstd then some 3 else none, 4⟩,
          some (.attached 3))) ∧
    ((fun _ => none : Algorithm → Option Nat) .zstd = some 7 →
      loaderStep ⟨fun _ => none, fun x => if x = .zstd then some 3 else none, 4⟩
        (.request .zstd) =
        (⟨fun _ => none, fun x => if x = .zstd then some 3 else none, 4⟩,
          some (.fromCache 7))) ∧
    ((loaderStep ⟨fun _ => none, fun x => if x = .zstd then some 3 else none, 4⟩
        (.settleOk .zstd 7)).1.initPromises .zstd = none ∧
      (loaderStep ⟨fun _ => none, fun x => if x = .zstd then some 3 else none, 4⟩
        (.settleOk .zstd 7)).1.moduleCache .zstd = some 7) ∧
    ((loaderStep ⟨fun _ => none, fun x => if x = .zstd then some 3 else none, 4⟩
        (.settleErr .zstd)).1.initPromises .zstd = none ∧
      (loaderStep ⟨fun _ => none, fun x => if x = .zstd then some 3 else none, 4⟩
        (.settleErr .zstd)).1.moduleCache .zstd =
        (fun _ => none : Algorithm → Option Nat) .zstd ∧
      ((fun _ => none : Algorithm → Option Nat) .zstd = none →
        (loaderStep
          (loaderStep ⟨fun _ => none, fun x => if x = .zstd then some 3 else none, 4⟩
            (.settleErr .zstd)).1 (.request .zstd)).2 = some (.startedInit 4))) :=
  loader_single_flight ⟨fun _ => none, fun x => if x = .zstd then some 3 else none, 4⟩ .zstd 7 3

end CompressUtils
